import Mathlib

/-!
Shallow embedding of the synchronization and simulation core of the
`simple-space-arcade` repository.

Modelling conventions:
* JavaScript `number` values are idealized as exact rationals (`ℚ`).
* `Math.PI` is embedded as `piQ`, the exact rational value of the IEEE-754
  double closest to π (the value `Math.PI` denotes at runtime).
* `Math.sqrt` is an opaque primitive; functions that call it take an explicit
  `msqrt : ℚ → ℚ` argument, and theorems assume only the facts about it that
  the source relies on (e.g. `msqrt 0 = 0`).
* JavaScript `Map` objects are embedded as association lists in insertion
  order; `x || default` on numbers maps 0/undefined to the default, mirroring
  JS falsiness where the source relies on it.
* Mutating class methods become pure functions from the receiver record to an
  updated record (paired with the return value when the method returns one).
-/

/-- Exact rational value of the IEEE-754 double `Math.PI`
(= 884279719003555 · 2⁻⁴⁸ ≈ 3.141592653589793). -/
def piQ : ℚ := 884279719003555 / 281474976710656

theorem piQ_pos : 0 < piQ := by norm_num [piQ]

theorem piQ_gt_three : 3 < piQ := by norm_num [piQ]

theorem piQ_lt_four : piQ < 4 := by norm_num [piQ]

namespace MathUtils

/-- First loop of `MathUtils.normalizeAngle`:
`while (angle > Math.PI) angle -= 2 * Math.PI;` -/
def normalizeDown (angle : ℚ) : ℚ :=
  if piQ < angle then normalizeDown (angle - 2 * piQ) else angle
termination_by (⌈(angle - piQ) / (2 * piQ)⌉).toNat
decreasing_by
  have h2 : (0 : ℚ) < 2 * piQ := by norm_num [piQ]
  have hq : 0 < (angle - piQ) / (2 * piQ) := by
    apply div_pos _ h2
    linarith
  have hrw : (angle - 2 * piQ - piQ) / (2 * piQ)
      = (angle - piQ) / (2 * piQ) - 1 := by
    field_simp
    ring
  have hc : 0 < ⌈(angle - piQ) / (2 * piQ)⌉ := Int.ceil_pos.mpr hq
  rw [hrw, Int.ceil_sub_one]
  omega

/-- Second loop of `MathUtils.normalizeAngle`:
`while (angle < -Math.PI) angle += 2 * Math.PI;` -/
def normalizeUp (angle : ℚ) : ℚ :=
  if angle < -piQ then normalizeUp (angle + 2 * piQ) else angle
termination_by (⌈(-piQ - angle) / (2 * piQ)⌉).toNat
decreasing_by
  have h2 : (0 : ℚ) < 2 * piQ := by norm_num [piQ]
  have hq : 0 < (-piQ - angle) / (2 * piQ) := by
    apply div_pos _ h2
    linarith
  have hrw : (-piQ - (angle + 2 * piQ)) / (2 * piQ)
      = (-piQ - angle) / (2 * piQ) - 1 := by
    field_simp
    ring
  have hc : 0 < ⌈(-piQ - angle) / (2 * piQ)⌉ := Int.ceil_pos.mpr hq
  rw [hrw, Int.ceil_sub_one]
  omega

/-- `MathUtils.normalizeAngle`: run both loops in source order. -/
def normalizeAngle (angle : ℚ) : ℚ := normalizeUp (normalizeDown angle)

theorem normalizeDown_le (a : ℚ) : normalizeDown a ≤ piQ := by
  rw [normalizeDown]
  split
  · exact normalizeDown_le (a - 2 * piQ)
  · linarith [not_lt.mp (by assumption : ¬ piQ < a)]
termination_by (⌈(a - piQ) / (2 * piQ)⌉).toNat
decreasing_by
  have h2 : (0 : ℚ) < 2 * piQ := by norm_num [piQ]
  have hq : 0 < (a - piQ) / (2 * piQ) := by
    apply div_pos _ h2
    linarith
  have hrw : (a - 2 * piQ - piQ) / (2 * piQ)
      = (a - piQ) / (2 * piQ) - 1 := by
    field_simp
    ring
  have hc : 0 < ⌈(a - piQ) / (2 * piQ)⌉ := Int.ceil_pos.mpr hq
  rw [hrw, Int.ceil_sub_one]
  omega

theorem normalizeUp_ge (a : ℚ) : -piQ ≤ normalizeUp a := by
  rw [normalizeUp]
  split
  · exact normalizeUp_ge (a + 2 * piQ)
  · linarith [not_lt.mp (by assumption : ¬ a < -piQ)]
termination_by (⌈(-piQ - a) / (2 * piQ)⌉).toNat
decreasing_by
  have h2 : (0 : ℚ) < 2 * piQ := by norm_num [piQ]
  have hq : 0 < (-piQ - a) / (2 * piQ) := by
    apply div_pos _ h2
    linarith
  have hrw : (-piQ - (a + 2 * piQ)) / (2 * piQ)
      = (-piQ - a) / (2 * piQ) - 1 := by
    field_simp
    ring
  have hc : 0 < ⌈(-piQ - a) / (2 * piQ)⌉ := Int.ceil_pos.mpr hq
  rw [hrw, Int.ceil_sub_one]
  omega

theorem normalizeUp_le (a : ℚ) (h : a ≤ piQ) : normalizeUp a ≤ piQ := by
  rw [normalizeUp]
  split
  · apply normalizeUp_le
    have hlt : a < -piQ := by assumption
    have := piQ_pos
    linarith
  · exact h
termination_by (⌈(-piQ - a) / (2 * piQ)⌉).toNat
decreasing_by
  have h2 : (0 : ℚ) < 2 * piQ := by norm_num [piQ]
  have hq : 0 < (-piQ - a) / (2 * piQ) := by
    apply div_pos _ h2
    linarith
  have hrw : (-piQ - (a + 2 * piQ)) / (2 * piQ)
      = (-piQ - a) / (2 * piQ) - 1 := by
    field_simp
    ring
  have hc : 0 < ⌈(-piQ - a) / (2 * piQ)⌉ := Int.ceil_pos.mpr hq
  rw [hrw, Int.ceil_sub_one]
  omega

theorem normalizeAngle_mem (a : ℚ) :
    -piQ ≤ normalizeAngle a ∧ normalizeAngle a ≤ piQ := by
  unfold normalizeAngle
  exact ⟨normalizeUp_ge _, normalizeUp_le _ (normalizeDown_le a)⟩

theorem normalizeAngle_of_mem (a : ℚ) (h₁ : -piQ ≤ a) (h₂ : a ≤ piQ) :
    normalizeAngle a = a := by
  unfold normalizeAngle
  rw [normalizeDown, if_neg (by linarith), normalizeUp, if_neg (by linarith)]

end MathUtils

namespace GAME_CONSTANTS

-- `GAME_CONSTANTS.SHIP` from `utils/Constants.ts`.
namespace SHIP

def ROTATION_SPEED : ℚ := 4

def MAX_HEALTH : ℚ := 100

def INVULNERABILITY_TIME : ℚ := 2000

def COLLISION_RADIUS : ℚ := 16

end SHIP

end GAME_CONSTANTS

/-- `Vector2D` from `game/physics/Vector2D.ts`. -/
structure Vector2D where
  x : ℚ
  y : ℚ
deriving DecidableEq, Repr

namespace Vector2D

/-- `Vector2D.divide(scalar)`: divides componentwise only when the scalar is
nonzero, otherwise leaves the vector unchanged. -/
def divide (v : Vector2D) (scalar : ℚ) : Vector2D :=
  if scalar ≠ 0 then { x := v.x / scalar, y := v.y / scalar } else v

/-- `Vector2D.magnitude()` = `Math.sqrt(x*x + y*y)`; `msqrt` stands for the
opaque `Math.sqrt` primitive. -/
def magnitude (msqrt : ℚ → ℚ) (v : Vector2D) : ℚ :=
  msqrt (v.x * v.x + v.y * v.y)

/-- `Vector2D.normalize()`: divides by the magnitude only when it is
positive. -/
def normalize (msqrt : ℚ → ℚ) (v : Vector2D) : Vector2D :=
  let mag := v.magnitude msqrt
  if 0 < mag then v.divide mag else v

/-- `Vector2D.distanceTo(vector)`. -/
def distanceTo (msqrt : ℚ → ℚ) (v w : Vector2D) : ℚ :=
  msqrt ((v.x - w.x) * (v.x - w.x) + (v.y - w.y) * (v.y - w.y))

end Vector2D

/-- The `input` record of a `Ship` (`game/entities/Ship.ts`). -/
structure ShipInput where
  thrust : Bool
  rotateLeft : Bool
  rotateRight : Bool
  shoot : Bool
deriving DecidableEq, Repr

/-- `Ship` from `game/entities/Ship.ts` (fields touched by the modeled
methods; visual-only fields such as `color`/`size` are omitted). -/
structure Ship where
  playerId : ℤ
  position : Vector2D
  velocity : Vector2D
  acceleration : Vector2D
  rotation : ℚ
  health : ℚ
  maxHealth : ℚ
  isAlive : Bool
  lastShotTime : ℚ
  invulnerableUntil : ℚ
  collisionRadius : ℚ
  input : ShipInput
deriving DecidableEq, Repr

namespace Ship

/-- `Ship.isInvulnerable(currentTime)`. -/
def isInvulnerable (s : Ship) (currentTime : ℚ) : Bool :=
  decide (currentTime < s.invulnerableUntil)

/-- `Ship.die()`. -/
def die (s : Ship) : Ship :=
  { s with isAlive := false, velocity := ⟨0, 0⟩, acceleration := ⟨0, 0⟩ }

/-- `Ship.takeDamage(damage, currentTime)`: returns the updated ship together
with the boolean the method returns (`true` iff the ship was killed). -/
def takeDamage (s : Ship) (damage currentTime : ℚ) : Ship × Bool :=
  if !s.isAlive || s.isInvulnerable currentTime then (s, false)
  else
    let s₁ := { s with health := s.health - damage }
    if s₁.health ≤ 0 then (Ship.die { s₁ with health := 0 }, true)
    else (s₁, false)

/-- `Ship.respawn(spawnPosition, currentTime)`. -/
def respawn (s : Ship) (spawnPosition : Vector2D) (currentTime : ℚ) : Ship :=
  { s with
    position := spawnPosition
    velocity := ⟨0, 0⟩
    acceleration := ⟨0, 0⟩
    rotation := if s.playerId = 0 then 0 else piQ
    health := s.maxHealth
    isAlive := true
    invulnerableUntil := currentTime + GAME_CONSTANTS.SHIP.INVULNERABILITY_TIME
    input := ⟨false, false, false, false⟩ }

/-- `Ship.updateRotation(deltaTime)`: accumulates the rotation input
(−1 for left, +1 for right), and when nonzero advances and normalizes the
rotation. -/
def updateRotation (s : Ship) (deltaTime : ℚ) : Ship :=
  let rotationInput : ℚ :=
    (if s.input.rotateLeft then -1 else 0) + (if s.input.rotateRight then 1 else 0)
  if rotationInput ≠ 0 then
    { s with rotation := MathUtils.normalizeAngle (s.rotation + rotationInput * GAME_CONSTANTS.SHIP.ROTATION_SPEED * (deltaTime / 1000)) }
  else s

end Ship

/-- `Projectile` from `game/entities/Projectile.ts` (fields used by the
collision methods). -/
structure Projectile where
  ownerId : ℤ
  position : Vector2D
  damage : ℚ
  collisionRadius : ℚ
  isActive : Bool
deriving DecidableEq, Repr

namespace Projectile

/-- `Projectile.checkCollision(targetPosition, targetRadius)`. -/
def checkCollision (msqrt : ℚ → ℚ) (p : Projectile)
    (targetPosition : Vector2D) (targetRadius : ℚ) : Bool :=
  if !p.isActive then false
  else decide (p.position.distanceTo msqrt targetPosition ≤ p.collisionRadius + targetRadius)

/-- `Projectile.checkShipCollision(ship)`: never collides with its own ship,
a dead ship, or while inactive. -/
def checkShipCollision (msqrt : ℚ → ℚ) (p : Projectile) (ship : Ship) : Bool :=
  if !p.isActive || !ship.isAlive || ship.playerId = p.ownerId then false
  else p.checkCollision msqrt ship.position ship.collisionRadius

end Projectile

/-- A scoreboard record in `GameState.players`
(`game/core/GameState.ts`). -/
structure Player where
  id : ℤ
  name : String
  score : ℚ
  kills : ℚ
  deaths : ℚ
  isConnected : Bool
deriving DecidableEq, Repr

namespace GameState

/-- The `playerId → Player` map of `GameState`, embedded as an association
list in insertion order (JS `Map` iterates in insertion order); the key of
each entry is the player's `id`. -/
abbrev Players := List Player

/-- `Map.get(id)` on the players map. -/
def getPlayer (players : Players) (id : ℤ) : Option Player :=
  players.find? (fun p => p.id = id)

/-- Match-lifecycle fields of `GameState` relevant to the win-condition and
kill-resolution logic. -/
structure MatchState where
  players : Players
  scoreLimit : ℚ
  timeLimit : ℚ
  matchStartTime : ℚ
  matchEndTime : ℚ
  isMatchActive : Bool
  winner : Option ℤ
deriving DecidableEq, Repr

/-- JavaScript `winnerId || null` where `winnerId : number | undefined`:
`undefined` and the falsy number `0` both collapse to `null`. -/
def jsOrNull (winnerId : Option ℤ) : Option ℤ :=
  match winnerId with
  | none => none
  | some w => if w = 0 then none else some w

/-- `GameState.endMatch(winnerId)` (the ship-input clearing is omitted: it
does not touch the match-lifecycle fields). -/
def endMatch (s : MatchState) (winnerId : Option ℤ) (now : ℚ) : MatchState :=
  { s with
    isMatchActive := false
    matchEndTime := now
    winner := jsOrNull winnerId }

/-- The time-limit fold of `GameState.checkWinConditions`: walk the players
in insertion order keeping the first strictly-highest score
(`highestScore` starts at −1, `winnerId` at `null`). -/
def highestScoreWinner (players : Players) : Option ℤ :=
  (players.foldl
    (fun acc p => if acc.1 < p.score then (p.score, some p.id) else acc)
    ((-1 : ℚ), (none : Option ℤ))).2

/-- `GameState.checkWinConditions(currentTime)`: no-op unless a match is
active; score threshold checked first (first player at or past
`scoreLimit` in insertion order wins), then the time limit (player with the
strictly highest score, first seen retained on ties). -/
def checkWinConditions (s : MatchState) (currentTime : ℚ) : MatchState :=
  if !s.isMatchActive then s
  else
    match s.players.find? (fun p => s.scoreLimit ≤ p.score) with
    | some p => endMatch s (some p.id) currentTime
    | none =>
      if 0 < s.timeLimit then
        if s.timeLimit ≤ currentTime - s.matchStartTime then
          endMatch s (jsOrNull (highestScoreWinner s.players)) currentTime
        else s
      else s

/-- `GameState.handleShipDestroyed(ship, killerId)`, restricted to its
effect on the players map (the respawn timer it schedules does not touch the
scoreboard). `killScore` stands for the configured
`GAME_CONSTANTS.GAME.KILL_SCORE`. The victim (entry with the destroyed
ship's `playerId`) gets `deaths` incremented; the killer entry gets
`kills`/`score` credit only when `killerId` differs from the victim's id. -/
def handleShipDestroyed (killScore : ℚ) (players : Players)
    (shipPlayerId killerId : ℤ) : Players :=
  players.map (fun p =>
    let p₁ := if p.id = shipPlayerId then { p with deaths := p.deaths + 1 } else p
    if p₁.id = killerId ∧ killerId ≠ shipPlayerId then
      { p₁ with kills := p₁.kills + 1, score := p₁.score + killScore }
    else p₁)

end GameState

namespace GameSync

/-- The `diff` computed inside `GameSync.interpolateAngle`: `to - from`,
then one conditional `-= 2π` and one conditional `+= 2π`. (`from` is a Lean
keyword, hence `fromAngle`/`toAngle`.) -/
def normalizedDiff (fromAngle toAngle : ℚ) : ℚ :=
  let diff := toAngle - fromAngle
  let diff := if piQ < diff then diff - 2 * piQ else diff
  if diff < -piQ then diff + 2 * piQ else diff

/-- `GameSync.interpolateAngle(from, to, alpha)`: shift the difference by at
most one turn, then scale by `alpha` and add to `from`. -/
def interpolateAngle (fromAngle toAngle alpha : ℚ) : ℚ :=
  fromAngle + normalizedDiff fromAngle toAngle * alpha

/-- A `game_state_update` message as consumed by
`GameSync.handleGameStateUpdate`: sender id, sequence number, and the
snapshot payload (`Snap` abstracts the serialized `gameState` field). -/
structure UpdateMessage (Snap : Type) where
  senderId : String
  sequenceNumber : ℤ
  gameState : Snap

/-- JS `Map.get(k)` on a string-keyed map embedded as an association list. -/
def mapGet {α : Type} (m : List (String × α)) (k : String) : Option α :=
  (m.find? (fun e => e.1 = k)).map (fun e => e.2)

/-- JS `Map.set(k, v)`: updates the existing entry in place, else appends. -/
def mapSet {α : Type} (m : List (String × α)) (k : String) (v : α) :
    List (String × α) :=
  if m.any (fun e => e.1 = k) then
    m.map (fun e => if e.1 = k then (e.1, v) else e)
  else m ++ [(k, v)]

/-- The `GameSync` fields read and written by `handleGameStateUpdate`.
`G` abstracts the local `GameState` object. -/
structure SyncState (G Snap : Type) where
  isHost : Bool
  gameState : G
  lastProcessedSequence : List (String × ℤ)
  stateHistory : List (UpdateMessage Snap)
  maxHistorySize : ℕ

/-- `GameSync.handleGameStateUpdate(message)`: discard the message unless its
sequence number strictly exceeds the last processed sequence for its sender
(`|| 0` when none); on acceptance record the sequence, apply the snapshot to
the local game state when not host (`applyFn` abstracts
`applyReceivedGameState`), and append to the bounded history. -/
def handleGameStateUpdate {G Snap : Type} (applyFn : G → UpdateMessage Snap → G)
    (st : SyncState G Snap) (message : UpdateMessage Snap) : SyncState G Snap :=
  let lastSequence := (mapGet st.lastProcessedSequence message.senderId).getD 0
  if message.sequenceNumber ≤ lastSequence then st
  else
    let st₁ := { st with
      lastProcessedSequence :=
        mapSet st.lastProcessedSequence message.senderId message.sequenceNumber }
    let st₂ :=
      if !st₁.isHost then { st₁ with gameState := applyFn st₁.gameState message }
      else st₁
    let hist := st₂.stateHistory ++ [message]
    { st₂ with
      stateHistory := if st₂.maxHistorySize < hist.length then hist.drop 1 else hist }

end GameSync

namespace PeerConnection

/-- `NetworkConfig` (`network/NetworkTypes.ts`), without the transport-only
`iceServers` list. -/
structure NetworkConfig where
  maxReconnectAttempts : ℕ
  reconnectDelay : ℚ
  pingInterval : ℚ
  timeoutDuration : ℚ
  maxMessageQueueSize : ℕ
deriving DecidableEq, Repr

/-- `DEFAULT_NETWORK_CONFIG` (`network/NetworkTypes.ts`). -/
def DEFAULT_NETWORK_CONFIG : NetworkConfig :=
  { maxReconnectAttempts := 5
    reconnectDelay := 2000
    pingInterval := 5000
    timeoutDuration := 10000
    maxMessageQueueSize := 100 }

/-- The `PeerConnection` fields touched by `sendToSpecificPeer`:
per-peer channel-open flags, per-peer outbound queues, and the log of
messages actually handed to an open channel (`conn.send`). -/
structure PeerState (M : Type) where
  connections : List (String × Bool)
  messageQueue : List (String × List M)
  sentLog : List (String × M)

/-- `PeerConnection.sendToSpecificPeer(message, peerId)`: send immediately on
an open channel; otherwise append to the peer's queue only while it holds
fewer than `maxMessageQueueSize` messages, dropping the message once full. -/
def sendToSpecificPeer {M : Type} (config : NetworkConfig) (st : PeerState M)
    (message : M) (peerId : String) : PeerState M :=
  match GameSync.mapGet st.connections peerId with
  | some true => { st with sentLog := st.sentLog ++ [(peerId, message)] }
  | _ =>
    let queue := (GameSync.mapGet st.messageQueue peerId).getD []
    if queue.length < config.maxMessageQueueSize then
      { st with messageQueue := GameSync.mapSet st.messageQueue peerId (queue ++ [message]) }
    else st

/-- Per-peer reconnection bookkeeping for one fixed peer: the
`reconnectAttempts` counter, the delays of the reconnect timers scheduled so
far, and how many `CONNECTION_FAILED` errors have been emitted for this
peer. -/
structure ReconnectState where
  attempts : ℕ
  scheduledDelays : List ℚ
  connectionFailedEmitted : ℕ
deriving DecidableEq, Repr

/-- `PeerConnection.attemptReconnection(peerId)` for one fixed peer: below
the cap, increment the stored counter and schedule a retry after
`reconnectDelay * (attempts + 1)`; at the cap, emit `CONNECTION_FAILED`. -/
def attemptReconnection (config : NetworkConfig) (s : ReconnectState) :
    ReconnectState :=
  if s.attempts < config.maxReconnectAttempts then
    { attempts := s.attempts + 1
      scheduledDelays := s.scheduledDelays ++ [config.reconnectDelay * (s.attempts + 1)]
      connectionFailedEmitted := s.connectionFailedEmitted }
  else
    { s with connectionFailedEmitted := s.connectionFailedEmitted + 1 }

/-- The effect of `PeerConnection.setupConnection(conn)` on the reconnection
bookkeeping for `conn.peer`: `this.reconnectAttempts.set(conn.peer, 0)`. -/
def setupConnection (s : ReconnectState) : ReconnectState :=
  { s with attempts := 0 }

/-- One failed reconnection attempt to the peer, as the code executes it:
the channel's `close` event runs `attemptReconnection`, the scheduled retry
then runs `handleOutgoingConnection → setupConnection` on the fresh channel
(resetting the stored counter to 0), and that channel in turn fails, closing
again to feed the next cycle. -/
def failedReconnectCycle (config : NetworkConfig) (s : ReconnectState) :
    ReconnectState :=
  setupConnection (attemptReconnection config s)

/-- The reconnection bookkeeping after `setupConnection` first runs for the
peer. -/
def initialReconnectState : ReconnectState :=
  { attempts := 0, scheduledDelays := [], connectionFailedEmitted := 0 }

/-- The outbound queue currently stored for a peer (empty when absent),
as read by `sendToSpecificPeer` via `this.messageQueue.get(peerId) || []`. -/
def queueOf {M : Type} (st : PeerState M) (peerId : String) : List M :=
  (GameSync.mapGet st.messageQueue peerId).getD []

/-- Sending a list of messages one after another to the same peer through
`sendToSpecificPeer` (the "send 150 messages while disconnected"
scenario). -/
def sendMany {M : Type} (config : NetworkConfig) (st : PeerState M)
    (msgs : List M) (peerId : String) : PeerState M :=
  msgs.foldl (fun s m => sendToSpecificPeer config s m peerId) st

end PeerConnection

section MapLemmas

variable {α : Type}

theorem mapGet_map_update (m : List (String × α)) (k : String) (v : α) :
    GameSync.mapGet (m.map (fun e => if e.1 = k then (e.1, v) else e)) k
      = (GameSync.mapGet m k).map (fun _ => v) := by
  induction m with
  | nil => rfl
  | cons e t ih =>
    by_cases h : e.1 = k
    · simp [GameSync.mapGet, List.find?_cons, h]
    · simpa [GameSync.mapGet, List.find?_cons, h] using ih

theorem mapGet_append_single (m : List (String × α)) (k : String) (v : α) :
    GameSync.mapGet (m ++ [(k, v)]) k
      = ((GameSync.mapGet m k).elim (some v) some) := by
  induction m with
  | nil => simp [GameSync.mapGet]
  | cons e t ih =>
    by_cases h : e.1 = k
    · simp [GameSync.mapGet, List.find?_cons, h]
    · simpa [GameSync.mapGet, List.find?_cons, h] using ih

theorem mapGet_mapSet_self (m : List (String × α)) (k : String) (v : α) :
    GameSync.mapGet (GameSync.mapSet m k v) k = some v := by
  unfold GameSync.mapSet
  by_cases h : m.any (fun e => e.1 = k)
  · rw [if_pos h, mapGet_map_update]
    rcases List.any_eq_true.mp h with ⟨e, he, hk⟩
    have hs : (GameSync.mapGet m k).isSome := by
      unfold GameSync.mapGet
      have h' : (m.find? fun e => e.1 = k).isSome :=
        List.find?_isSome.mpr ⟨e, he, hk⟩
      simpa using h'
    rcases Option.isSome_iff_exists.mp hs with ⟨x, hx⟩
    simp [hx]
  · rw [if_neg h, mapGet_append_single]
    have : GameSync.mapGet m k = none := by
      unfold GameSync.mapGet
      rw [List.find?_eq_none.mpr]
      · rfl
      · intro e he
        by_contra hk
        exact h (List.any_eq_true.mpr ⟨e, he, by simpa using hk⟩)
    simp [this]

end MapLemmas

theorem getPlayer_map_of_id (f : Player → Player) (hid : ∀ p, (f p).id = p.id)
    (players : GameState.Players) (k : ℤ) :
    GameState.getPlayer (players.map f) k
      = (GameState.getPlayer players k).map f := by
  induction players with
  | nil => rfl
  | cons p t ih =>
    by_cases h : p.id = k
    · simp [GameState.getPlayer, List.find?_cons, hid, h]
    · simpa [GameState.getPlayer, List.find?_cons, hid, h] using ih

theorem getPlayer_some_id (players : GameState.Players) (k : ℤ) (p : Player)
    (h : GameState.getPlayer players k = some p) : p.id = k := by
  unfold GameState.getPlayer at h
  simpa using List.find?_some h

/-- C1: `GameSync.handleGameStateUpdate` discards a `game_state_update`
message whose sequence number is at most the last accepted sequence number
`S` recorded for its sender (the whole sync state — local game state, stored
sequence numbers and history — is unchanged); when the sequence number is
strictly greater than `S`, the snapshot is accepted: the stored last-accepted
sequence number for that sender becomes the message's sequence number, and a
non-host applies the snapshot to the local game state (a host leaves it as
is). -/
theorem handleGameStateUpdate_sequence_gating {G Snap : Type}
    (applyFn : G → GameSync.UpdateMessage Snap → G)
    (st : GameSync.SyncState G Snap) (m : GameSync.UpdateMessage Snap) (S : ℤ)
    (hS : GameSync.mapGet st.lastProcessedSequence m.senderId = some S) :
    (m.sequenceNumber ≤ S → GameSync.handleGameStateUpdate applyFn st m = st) ∧
    (S < m.sequenceNumber →
      GameSync.mapGet
          (GameSync.handleGameStateUpdate applyFn st m).lastProcessedSequence
          m.senderId = some m.sequenceNumber ∧
      (GameSync.handleGameStateUpdate applyFn st m).gameState =
        (if st.isHost then st.gameState else applyFn st.gameState m)) := by
  constructor
  · intro hle
    unfold GameSync.handleGameStateUpdate
    rw [hS]
    simp only [Option.getD_some]
    rw [if_pos hle]
  · intro hlt
    unfold GameSync.handleGameStateUpdate
    rw [hS]
    simp only [Option.getD_some, if_neg (not_le.mpr hlt)]
    constructor
    · cases hh : st.isHost <;>
        simp [hh, mapGet_mapSet_self]
    · cases hh : st.isHost <;> simp [hh]

/-- Witness for C1: with the last accepted sequence 5 from sender "h", a
message with sequence 3 is discarded and one with sequence 7 is accepted. -/
theorem handleGameStateUpdate_sequence_gating_witness :
    (GameSync.handleGameStateUpdate
        (fun (g : ℕ) (_ : GameSync.UpdateMessage Unit) => g + 1)
        { isHost := false, gameState := 0, lastProcessedSequence := [("h", 5)],
          stateHistory := [], maxHistorySize := 60 }
        { senderId := "h", sequenceNumber := 3, gameState := () }
      = { isHost := false, gameState := 0, lastProcessedSequence := [("h", 5)],
          stateHistory := [], maxHistorySize := 60 }) ∧
    GameSync.mapGet
        (GameSync.handleGameStateUpdate
          (fun (g : ℕ) (_ : GameSync.UpdateMessage Unit) => g + 1)
          { isHost := false, gameState := 0, lastProcessedSequence := [("h", 5)],
            stateHistory := [], maxHistorySize := 60 }
          { senderId := "h", sequenceNumber := 7, gameState := () }).lastProcessedSequence
        "h" = some 7 := by
  constructor
  · exact (handleGameStateUpdate_sequence_gating _ _ _ 5 (by rfl)).1 (by norm_num)
  · exact ((handleGameStateUpdate_sequence_gating _ _ _ 5 (by rfl)).2 (by norm_num)).1

/-- C2: `Projectile.checkShipCollision` returns `false` whenever the ship
shares the projectile's `ownerId`, or the ship is dead, or the projectile is
inactive — for arbitrary positions and an arbitrary `Math.sqrt` model, so a
projectile never registers a collision against its owner's living ship nor a
dead ship at any relative position. -/
theorem checkShipCollision_exclusions (msqrt : ℚ → ℚ) (p : Projectile)
    (s : Ship)
    (h : s.playerId = p.ownerId ∨ s.isAlive = false ∨ p.isActive = false) :
    Projectile.checkShipCollision msqrt p s = false := by
  unfold Projectile.checkShipCollision
  rcases h with h | h | h <;> simp [h]

/-- Witness for C2: a projectile sitting exactly on its owner's living ship
(distance 0, well inside the collision radii) still reports no collision. -/
theorem checkShipCollision_exclusions_witness :
    Projectile.checkShipCollision (fun q => q)
      { ownerId := 7, position := ⟨100, 100⟩, damage := 25,
        collisionRadius := 4, isActive := true }
      { playerId := 7, position := ⟨100, 100⟩, velocity := ⟨0, 0⟩,
        acceleration := ⟨0, 0⟩, rotation := 0, health := 100, maxHealth := 100,
        isAlive := true, lastShotTime := 0, invulnerableUntil := 0,
        collisionRadius := 16, input := ⟨false, false, false, false⟩ }
      = false :=
  checkShipCollision_exclusions _ _ _ (Or.inl rfl)

/-- C10: `Vector2D.divide` with scalar 0 leaves the vector unchanged, and
`Vector2D.normalize` on the zero vector (for any `Math.sqrt` model with
`√0 = 0`) leaves it at `(0, 0)`; the division branch runs only for a nonzero
scalar, where rational division is total — the embedded operations cannot
produce anything but ordinary finite values. -/
theorem divide_normalize_guards (msqrt : ℚ → ℚ) (v : Vector2D)
    (h0 : msqrt 0 = 0) :
    Vector2D.divide v 0 = v ∧
    Vector2D.normalize msqrt ⟨0, 0⟩ = ⟨0, 0⟩ ∧
    ∀ scalar : ℚ, scalar ≠ 0 →
      Vector2D.divide v scalar = ⟨v.x / scalar, v.y / scalar⟩ := by
  refine ⟨?_, ?_, ?_⟩
  · simp [Vector2D.divide]
  · simp [Vector2D.normalize, Vector2D.magnitude, h0]
  · intro scalar hs
    simp [Vector2D.divide, hs]

/-- C3: lethal damage on a living, non-invulnerable ship zeroes its health,
kills it, and returns `true`; the dead ship rejects any further `takeDamage`
unchanged (the transition happens once per life); `handleShipDestroyed` then
increments the victim's `deaths` by exactly 1, credits the killer's
`kills`/`score` (by the configured kill score) only when the killer id
differs from the victim's `playerId`, and on a self-kill changes nobody's
`kills` or `score`. -/
theorem lethal_damage_kill_resolution (s : Ship) (d t killScore : ℚ)
    (players : GameState.Players) (killerId : ℤ)
    (halive : s.isAlive = true) (hinv : s.invulnerableUntil ≤ t)
    (hd : s.health ≤ d) :
    ((Ship.takeDamage s d t).1.health = 0 ∧
      (Ship.takeDamage s d t).1.isAlive = false ∧
      (Ship.takeDamage s d t).2 = true) ∧
    (∀ d₂ t₂ : ℚ, Ship.takeDamage (Ship.takeDamage s d t).1 d₂ t₂
        = ((Ship.takeDamage s d t).1, false)) ∧
    (GameState.getPlayer
        (GameState.handleShipDestroyed killScore players s.playerId killerId)
        s.playerId
      = (GameState.getPlayer players s.playerId).map
          (fun v => { v with deaths := v.deaths + 1 })) ∧
    (killerId ≠ s.playerId →
      GameState.getPlayer
          (GameState.handleShipDestroyed killScore players s.playerId killerId)
          killerId
        = (GameState.getPlayer players killerId).map
            (fun v => { v with kills := v.kills + 1, score := v.score + killScore })) ∧
    (killerId = s.playerId → ∀ q : ℤ,
      GameState.getPlayer
          (GameState.handleShipDestroyed killScore players s.playerId killerId) q
        = (GameState.getPlayer players q).map
            (fun v => if v.id = s.playerId then { v with deaths := v.deaths + 1 } else v)) := by
  have hkey : Ship.takeDamage s d t = (Ship.die { s with health := 0 }, true) := by
    unfold Ship.takeDamage Ship.isInvulnerable
    rw [halive]
    simp [not_lt.mpr hinv, sub_nonpos.mpr hd]
  have hid : ∀ p : Player,
      ((fun p : Player =>
        let p₁ := if p.id = s.playerId then { p with deaths := p.deaths + 1 } else p
        if p₁.id = killerId ∧ killerId ≠ s.playerId then
          { p₁ with kills := p₁.kills + 1, score := p₁.score + killScore }
        else p₁) p).id = p.id := by
    intro p
    dsimp only
    split <;> split <;> rfl
  refine ⟨?_, ?_, ?_, ?_, ?_⟩
  · rw [hkey]
    simp [Ship.die]
  · intro d₂ t₂
    rw [hkey]
    unfold Ship.takeDamage
    simp [Ship.die]
  · unfold GameState.handleShipDestroyed
    rw [getPlayer_map_of_id _ hid]
    cases hv : GameState.getPlayer players s.playerId with
    | none => rfl
    | some v =>
      have hvid := getPlayer_some_id players s.playerId v hv
      simp only [Option.map_some]
      by_cases hk : killerId = s.playerId
      · simp [hvid, hk]
      · have hk' : ¬ s.playerId = killerId := fun hc => hk hc.symm
        simp [hvid, hk, hk']
  · intro hne
    unfold GameState.handleShipDestroyed
    rw [getPlayer_map_of_id _ hid]
    cases hv : GameState.getPlayer players killerId with
    | none => rfl
    | some v =>
      have hvid := getPlayer_some_id players killerId v hv
      have hvne : v.id ≠ s.playerId := by
        rw [hvid]; exact hne
      have hne' : ¬ s.playerId = killerId := fun hcontr => hne hcontr.symm
      simp [hvid, hvne, hne, hne']
  · intro hk q
    unfold GameState.handleShipDestroyed
    have hstep : (fun p : Player =>
        let p₁ := if p.id = s.playerId then { p with deaths := p.deaths + 1 } else p
        if p₁.id = killerId ∧ killerId ≠ s.playerId then
          { p₁ with kills := p₁.kills + 1, score := p₁.score + killScore }
        else p₁)
        = (fun v : Player =>
            if v.id = s.playerId then { v with deaths := v.deaths + 1 } else v) := by
      funext p
      simp [hk]
    rw [hstep, getPlayer_map_of_id]
    intro p
    by_cases h₁ : p.id = s.playerId <;> simp [h₁]

/-- Witness for C3: a 100-health living ship (player 0) takes 100 damage at
time 1000 from player 1's projectile; deaths/kills/score move as claimed
(kill score 20). -/
theorem lethal_damage_kill_resolution_witness :
    ((Ship.takeDamage
        { playerId := 0, position := ⟨200, 300⟩, velocity := ⟨0, 0⟩,
          acceleration := ⟨0, 0⟩, rotation := 0, health := 100, maxHealth := 100,
          isAlive := true, lastShotTime := 0, invulnerableUntil := 0,
          collisionRadius := 16, input := ⟨false, false, false, false⟩ }
        100 1000).1.health = 0 ∧
      (Ship.takeDamage
        { playerId := 0, position := ⟨200, 300⟩, velocity := ⟨0, 0⟩,
          acceleration := ⟨0, 0⟩, rotation := 0, health := 100, maxHealth := 100,
          isAlive := true, lastShotTime := 0, invulnerableUntil := 0,
          collisionRadius := 16, input := ⟨false, false, false, false⟩ }
        100 1000).2 = true) ∧
    GameState.getPlayer
        (GameState.handleShipDestroyed 20
          [{ id := 0, name := "P1", score := 0, kills := 0, deaths := 0, isConnected := true },
           { id := 1, name := "P2", score := 0, kills := 0, deaths := 0, isConnected := true }]
          0 1) 1
      = some { id := 1, name := "P2", score := 20, kills := 1, deaths := 0, isConnected := true } := by
  have h := lethal_damage_kill_resolution
    { playerId := 0, position := ⟨200, 300⟩, velocity := ⟨0, 0⟩,
      acceleration := ⟨0, 0⟩, rotation := 0, health := 100, maxHealth := 100,
      isAlive := true, lastShotTime := 0, invulnerableUntil := 0,
      collisionRadius := 16, input := ⟨false, false, false, false⟩ }
    100 1000 20
    [{ id := 0, name := "P1", score := 0, kills := 0, deaths := 0, isConnected := true },
     { id := 1, name := "P2", score := 0, kills := 0, deaths := 0, isConnected := true }]
    1 rfl (by norm_num) (by norm_num)
  refine ⟨⟨h.1.1, h.1.2.2⟩, ?_⟩
  rw [h.2.2.2.1 (by norm_num)]
  norm_num [GameState.getPlayer]

/-- C4 (refuting evaluation): in an active match whose only player has
`id = 0` and has reached the score limit, `checkWinConditions` ends the
match but records `winner = none` (JS `winnerId || null` collapses the
falsy id 0), while an identical player with `id = 1` is recorded as the
winner. -/
theorem checkWinConditions_drops_player_zero :
    (GameState.checkWinConditions
        { players := [{ id := 0, name := "P1", score := 5, kills := 5,
                        deaths := 0, isConnected := true }],
          scoreLimit := 5, timeLimit := 300000, matchStartTime := 0,
          matchEndTime := 0, isMatchActive := true, winner := none }
        1000).isMatchActive = false ∧
    (GameState.checkWinConditions
        { players := [{ id := 0, name := "P1", score := 5, kills := 5,
                        deaths := 0, isConnected := true }],
          scoreLimit := 5, timeLimit := 300000, matchStartTime := 0,
          matchEndTime := 0, isMatchActive := true, winner := none }
        1000).winner = none ∧
    (GameState.checkWinConditions
        { players := [{ id := 1, name := "P2", score := 5, kills := 5,
                        deaths := 0, isConnected := true }],
          scoreLimit := 5, timeLimit := 300000, matchStartTime := 0,
          matchEndTime := 0, isMatchActive := true, winner := none }
        1000).winner = some 1 := by
  refine ⟨?_, ?_, ?_⟩ <;> rfl

/-- C5 (refuting trace evaluation): each failed reconnection cycle runs
`attemptReconnection` on the `close` event and then `setupConnection` on the
scheduled retry's fresh channel, which resets the stored
`reconnectAttempts` to 0 — so after six failed cycles with the default
config (`maxReconnectAttempts = 5`, `reconnectDelay = 2000`) six retries
have been scheduled (every one with delay 2000 × 1, never backing off) and
no `CONNECTION_FAILED` error has been emitted. -/
theorem reconnect_cap_never_binds :
    ((PeerConnection.failedReconnectCycle
        PeerConnection.DEFAULT_NETWORK_CONFIG)^[6]
        PeerConnection.initialReconnectState).connectionFailedEmitted = 0 ∧
    ((PeerConnection.failedReconnectCycle
        PeerConnection.DEFAULT_NETWORK_CONFIG)^[6]
        PeerConnection.initialReconnectState).scheduledDelays
      = [2000, 2000, 2000, 2000, 2000, 2000] := by
  have hone : ∀ s : PeerConnection.ReconnectState, s.attempts = 0 →
      PeerConnection.failedReconnectCycle PeerConnection.DEFAULT_NETWORK_CONFIG s
        = { attempts := 0, scheduledDelays := s.scheduledDelays ++ [2000],
            connectionFailedEmitted := s.connectionFailedEmitted } := by
    intro s hs
    unfold PeerConnection.failedReconnectCycle PeerConnection.attemptReconnection
      PeerConnection.setupConnection
    rw [if_pos (by rw [hs]; norm_num [PeerConnection.DEFAULT_NETWORK_CONFIG])]
    simp [hs]
    norm_num [PeerConnection.DEFAULT_NETWORK_CONFIG]
  rw [show (6 : ℕ) = 5 + 1 from rfl, Function.iterate_succ_apply',
    show (5 : ℕ) = 4 + 1 from rfl, Function.iterate_succ_apply',
    show (4 : ℕ) = 3 + 1 from rfl, Function.iterate_succ_apply',
    show (3 : ℕ) = 2 + 1 from rfl, Function.iterate_succ_apply',
    show (2 : ℕ) = 1 + 1 from rfl, Function.iterate_succ_apply',
    Function.iterate_one]
  rw [hone _ rfl, hone _ rfl, hone _ rfl, hone _ rfl, hone _ rfl, hone _ rfl]
  simp [PeerConnection.initialReconnectState]

/-- C9: `respawn` sets `invulnerableUntil` to the respawn time plus
`INVULNERABILITY_TIME`; any `takeDamage` strictly before that instant
returns `false` and leaves the ship (health, aliveness, everything)
unchanged; from that instant on, `takeDamage` applies the damage normally
(health reduced, death exactly when the remaining health is ≤ 0). -/
theorem respawn_invulnerability (s : Ship) (pos : Vector2D) (t d tq : ℚ) :
    (Ship.respawn s pos t).invulnerableUntil
        = t + GAME_CONSTANTS.SHIP.INVULNERABILITY_TIME ∧
    (tq < t + GAME_CONSTANTS.SHIP.INVULNERABILITY_TIME →
      Ship.takeDamage (Ship.respawn s pos t) d tq
        = (Ship.respawn s pos t, false)) ∧
    (t + GAME_CONSTANTS.SHIP.INVULNERABILITY_TIME ≤ tq →
      Ship.takeDamage (Ship.respawn s pos t) d tq
        = if (Ship.respawn s pos t).health - d ≤ 0 then
            (Ship.die { Ship.respawn s pos t with health := 0 }, true)
          else
            ({ Ship.respawn s pos t with
                health := (Ship.respawn s pos t).health - d }, false)) := by
  refine ⟨rfl, ?_, ?_⟩
  · intro hlt
    have hc : Ship.isInvulnerable (Ship.respawn s pos t) tq = true := by
      unfold Ship.isInvulnerable
      exact decide_eq_true hlt
    unfold Ship.takeDamage
    rw [hc]
    rfl
  · intro hge
    have hc : Ship.isInvulnerable (Ship.respawn s pos t) tq = false := by
      unfold Ship.isInvulnerable
      exact decide_eq_false (not_lt.mpr hge)
    unfold Ship.takeDamage
    rw [hc]
    rfl

/-- Witness for C9: respawn at time 1000 (invulnerable until 3000); 30
damage at time 1500 is ignored, 30 damage at time 3000 leaves 70 health. -/
theorem respawn_invulnerability_witness :
    Ship.takeDamage
        (Ship.respawn
          { playerId := 0, position := ⟨0, 0⟩, velocity := ⟨0, 0⟩,
            acceleration := ⟨0, 0⟩, rotation := 0, health := 40, maxHealth := 100,
            isAlive := false, lastShotTime := 0, invulnerableUntil := 0,
            collisionRadius := 16, input := ⟨false, false, false, false⟩ }
          ⟨200, 300⟩ 1000) 30 1500
      = (Ship.respawn
          { playerId := 0, position := ⟨0, 0⟩, velocity := ⟨0, 0⟩,
            acceleration := ⟨0, 0⟩, rotation := 0, health := 40, maxHealth := 100,
            isAlive := false, lastShotTime := 0, invulnerableUntil := 0,
            collisionRadius := 16, input := ⟨false, false, false, false⟩ }
          ⟨200, 300⟩ 1000, false) ∧
    (Ship.takeDamage
        (Ship.respawn
          { playerId := 0, position := ⟨0, 0⟩, velocity := ⟨0, 0⟩,
            acceleration := ⟨0, 0⟩, rotation := 0, health := 40, maxHealth := 100,
            isAlive := false, lastShotTime := 0, invulnerableUntil := 0,
            collisionRadius := 16, input := ⟨false, false, false, false⟩ }
          ⟨200, 300⟩ 1000) 30 3000).1.health = 70 := by
  have h := respawn_invulnerability
    { playerId := 0, position := ⟨0, 0⟩, velocity := ⟨0, 0⟩,
      acceleration := ⟨0, 0⟩, rotation := 0, health := 40, maxHealth := 100,
      isAlive := false, lastShotTime := 0, invulnerableUntil := 0,
      collisionRadius := 16, input := ⟨false, false, false, false⟩ }
    ⟨200, 300⟩ 1000 30
  constructor
  · exact (h 1500).2.1
      (by norm_num [GAME_CONSTANTS.SHIP.INVULNERABILITY_TIME])
  · rw [(h 3000).2.2
      (by norm_num [GAME_CONSTANTS.SHIP.INVULNERABILITY_TIME])]
    norm_num [Ship.respawn]

/-- Witness for C10 at the vector (3, 4) with the sqrt model `fun _ => 0`. -/
theorem divide_normalize_guards_witness :
    Vector2D.divide ⟨3, 4⟩ 0 = (⟨3, 4⟩ : Vector2D) ∧
    Vector2D.normalize (fun _ => 0) ⟨0, 0⟩ = (⟨0, 0⟩ : Vector2D) ∧
    Vector2D.divide ⟨3, 4⟩ 5 = (⟨3 / 5, 4 / 5⟩ : Vector2D) := by
  refine ⟨(divide_normalize_guards (fun _ => 0) ⟨3, 4⟩ rfl).1,
    (divide_normalize_guards (fun _ => 0) ⟨3, 4⟩ rfl).2.1,
    (divide_normalize_guards (fun _ => 0) ⟨3, 4⟩ rfl).2.2 5 (by norm_num)⟩

/-- Setting the queue for `pid` and reading it back through `queueOf`. -/
theorem queueOf_mapSet {M : Type} (st : PeerConnection.PeerState M)
    (pid : String) (q : List M) :
    PeerConnection.queueOf
        { st with messageQueue := GameSync.mapSet st.messageQueue pid q } pid
      = q := by
  show (GameSync.mapGet (GameSync.mapSet st.messageQueue pid q) pid).getD [] = q
  rw [mapGet_mapSet_self]
  rfl

theorem sendToSpecificPeer_closed {M : Type} (config : PeerConnection.NetworkConfig)
    (st : PeerConnection.PeerState M) (m : M) (pid : String)
    (hclosed : GameSync.mapGet st.connections pid ≠ some true) :
    PeerConnection.sendToSpecificPeer config st m pid
      = (if (PeerConnection.queueOf st pid).length < config.maxMessageQueueSize
         then { st with messageQueue := GameSync.mapSet st.messageQueue pid (PeerConnection.queueOf st pid ++ [m]) }
         else st) := by
  unfold PeerConnection.sendToSpecificPeer PeerConnection.queueOf
  rcases hc : GameSync.mapGet st.connections pid with _ | b
  · rfl
  · cases b
    · rfl
    · exact absurd hc hclosed

theorem sendMany_closed {M : Type} (config : PeerConnection.NetworkConfig)
    (pid : String) :
    ∀ (msgs : List M) (st : PeerConnection.PeerState M),
      GameSync.mapGet st.connections pid ≠ some true →
      (PeerConnection.queueOf st pid).length ≤ config.maxMessageQueueSize →
      PeerConnection.queueOf (PeerConnection.sendMany config st msgs pid) pid
        = PeerConnection.queueOf st pid
          ++ msgs.take
              (config.maxMessageQueueSize - (PeerConnection.queueOf st pid).length) := by
  intro msgs
  induction msgs with
  | nil =>
    intro st hcl hle
    simp [PeerConnection.sendMany]
  | cons m t ih =>
    intro st hcl hle
    have hstep := sendToSpecificPeer_closed config st m pid hcl
    have hfold : PeerConnection.sendMany config st (m :: t) pid
        = PeerConnection.sendMany config
            (PeerConnection.sendToSpecificPeer config st m pid) t pid := rfl
    by_cases hlt :
        (PeerConnection.queueOf st pid).length < config.maxMessageQueueSize
    · have hst' : PeerConnection.sendToSpecificPeer config st m pid
          = { st with messageQueue := GameSync.mapSet st.messageQueue pid (PeerConnection.queueOf st pid ++ [m]) } := by
        rw [hstep, if_pos hlt]
      have hq : PeerConnection.queueOf
          (PeerConnection.sendToSpecificPeer config st m pid) pid
          = PeerConnection.queueOf st pid ++ [m] := by
        rw [hst', queueOf_mapSet]
      have hcl' : GameSync.mapGet
          (PeerConnection.sendToSpecificPeer config st m pid).connections pid
          ≠ some true := by
        rw [hst']
        exact hcl
      have hle' : (PeerConnection.queueOf
          (PeerConnection.sendToSpecificPeer config st m pid) pid).length
          ≤ config.maxMessageQueueSize := by
        rw [hq]
        simp only [List.length_append, List.length_singleton]
        omega
      rw [hfold, ih _ hcl' hle', hq]
      have harith : config.maxMessageQueueSize - (PeerConnection.queueOf st pid).length
          = (config.maxMessageQueueSize
              - (PeerConnection.queueOf st pid ++ [m]).length) + 1 := by
        simp only [List.length_append, List.length_singleton]
        omega
      rw [harith, List.take_succ_cons, List.append_assoc]
      simp
    · have hst' : PeerConnection.sendToSpecificPeer config st m pid = st := by
        rw [hstep, if_neg hlt]
      rw [hfold, hst', ih st hcl hle]
      have h0 : config.maxMessageQueueSize - (PeerConnection.queueOf st pid).length = 0 := by
        omega
      rw [h0]
      rfl

/-- C6: when the channel to a peer is not open, `sendToSpecificPeer` appends
the message to that peer's outbound queue exactly when the queue holds fewer
than `maxMessageQueueSize` messages and drops it otherwise; hence the queue
length never exceeds `maxMessageQueueSize`, the oldest messages are the ones
retained, and sending any sequence of messages while disconnected queues
precisely its first `maxMessageQueueSize` elements (with the default
configuration, 150 sends leave exactly the first 100). -/
theorem sendToSpecificPeer_queue_bound {M : Type}
    (config : PeerConnection.NetworkConfig) (st : PeerConnection.PeerState M)
    (m : M) (pid : String)
    (hclosed : GameSync.mapGet st.connections pid ≠ some true) :
    (PeerConnection.queueOf (PeerConnection.sendToSpecificPeer config st m pid) pid
      = if (PeerConnection.queueOf st pid).length < config.maxMessageQueueSize
        then PeerConnection.queueOf st pid ++ [m]
        else PeerConnection.queueOf st pid) ∧
    ((PeerConnection.queueOf st pid).length ≤ config.maxMessageQueueSize →
      (PeerConnection.queueOf
          (PeerConnection.sendToSpecificPeer config st m pid) pid).length
        ≤ config.maxMessageQueueSize) ∧
    (∀ msgs : List M, PeerConnection.queueOf st pid = [] →
      PeerConnection.queueOf (PeerConnection.sendMany config st msgs pid) pid
        = msgs.take config.maxMessageQueueSize) := by
  have hstep := sendToSpecificPeer_closed config st m pid hclosed
  have hfirst : PeerConnection.queueOf
      (PeerConnection.sendToSpecificPeer config st m pid) pid
      = if (PeerConnection.queueOf st pid).length < config.maxMessageQueueSize
        then PeerConnection.queueOf st pid ++ [m]
        else PeerConnection.queueOf st pid := by
    rw [hstep]
    split
    · rw [queueOf_mapSet]
    · rfl
  refine ⟨hfirst, ?_, ?_⟩
  · intro hle
    rw [hfirst]
    split
    · simp only [List.length_append, List.length_singleton]
      omega
    · exact hle
  · intro msgs hq
    rw [sendMany_closed config pid msgs st hclosed (by rw [hq]; simp), hq]
    simp

/-- Witness for C6: with the default configuration
(`maxMessageQueueSize = 100`) and a closed channel to peer "p", sending the
150 messages `0, …, 149` leaves exactly the first 100 queued. -/
theorem sendToSpecificPeer_queue_bound_witness :
    PeerConnection.queueOf
        (PeerConnection.sendMany PeerConnection.DEFAULT_NETWORK_CONFIG
          { connections := [("p", false)], messageQueue := [], sentLog := [] }
          (List.range 150) "p") "p"
      = List.range 100 := by
  have h := sendToSpecificPeer_queue_bound PeerConnection.DEFAULT_NETWORK_CONFIG
    { connections := [("p", false)], messageQueue := [], sentLog := [] }
    0 "p" (by simp [GameSync.mapGet])
  rw [h.2.2 (List.range 150) rfl, List.take_range]
  rfl

/-- C7 (refuting evaluation): `MathUtils.normalizeAngle` maps −π (the
embedded `Math.PI` value) to −π itself: neither `while` guard fires, so the
result is not in the half-open interval (−π, π]. -/
theorem normalizeAngle_neg_pi_counterexample :
    MathUtils.normalizeAngle (-piQ) = -piQ ∧
    ¬ (-piQ < MathUtils.normalizeAngle (-piQ)
        ∧ MathUtils.normalizeAngle (-piQ) ≤ piQ) := by
  have h := MathUtils.normalizeAngle_of_mem (-piQ) le_rfl
    (by linarith [piQ_pos])
  refine ⟨h, ?_⟩
  rw [h]
  simp

/-- C7 (amended): `MathUtils.normalizeAngle` always lands in the closed
interval [−π, π]; `Ship.updateRotation` therefore leaves the rotation in
[−π, π] whenever a rotation input is applied (and, with no rotation input,
keeps a rotation that was already in [−π, π] there). -/
theorem normalizeAngle_updateRotation_range :
    (∀ a : ℚ, -piQ ≤ MathUtils.normalizeAngle a ∧ MathUtils.normalizeAngle a ≤ piQ) ∧
    (∀ (s : Ship) (deltaTime : ℚ), s.input.rotateLeft ≠ s.input.rotateRight →
      -piQ ≤ (Ship.updateRotation s deltaTime).rotation ∧
        (Ship.updateRotation s deltaTime).rotation ≤ piQ) ∧
    (∀ (s : Ship) (deltaTime : ℚ),
      -piQ ≤ s.rotation → s.rotation ≤ piQ →
      -piQ ≤ (Ship.updateRotation s deltaTime).rotation ∧
        (Ship.updateRotation s deltaTime).rotation ≤ piQ) := by
  refine ⟨MathUtils.normalizeAngle_mem, ?_, ?_⟩
  · intro s dt hne
    cases hL : s.input.rotateLeft <;> cases hR : s.input.rotateRight
    · rw [hL, hR] at hne
      exact absurd rfl hne
    · simp only [Ship.updateRotation, hL, hR]
      norm_num
      exact MathUtils.normalizeAngle_mem _
    · simp only [Ship.updateRotation, hL, hR]
      norm_num
      exact MathUtils.normalizeAngle_mem _
    · rw [hL, hR] at hne
      exact absurd rfl hne
  · intro s dt h₁ h₂
    simp only [Ship.updateRotation]
    split <;> split <;>
      first
        | exact MathUtils.normalizeAngle_mem _
        | exact ⟨h₁, h₂⟩
        | (split <;>
            first
              | exact MathUtils.normalizeAngle_mem _
              | exact ⟨h₁, h₂⟩)

/-- Witness for C7 (amended): a ship rotating left from rotation 100 for a
16 ms frame ends inside [−π, π]. -/
theorem normalizeAngle_updateRotation_range_witness :
    -piQ ≤ (Ship.updateRotation
        { playerId := 0, position := ⟨0, 0⟩, velocity := ⟨0, 0⟩,
          acceleration := ⟨0, 0⟩, rotation := 100, health := 100, maxHealth := 100,
          isAlive := true, lastShotTime := 0, invulnerableUntil := 0,
          collisionRadius := 16, input := ⟨false, true, false, false⟩ }
        16).rotation ∧
    (Ship.updateRotation
        { playerId := 0, position := ⟨0, 0⟩, velocity := ⟨0, 0⟩,
          acceleration := ⟨0, 0⟩, rotation := 100, health := 100, maxHealth := 100,
          isAlive := true, lastShotTime := 0, invulnerableUntil := 0,
          collisionRadius := 16, input := ⟨false, true, false, false⟩ }
        16).rotation ≤ piQ :=
  normalizeAngle_updateRotation_range.2.1
    { playerId := 0, position := ⟨0, 0⟩, velocity := ⟨0, 0⟩,
      acceleration := ⟨0, 0⟩, rotation := 100, health := 100, maxHealth := 100,
      isAlive := true, lastShotTime := 0, invulnerableUntil := 0,
      collisionRadius := 16, input := ⟨false, true, false, false⟩ }
    16 (by simp)

/-- C8 (refuting evaluation): for `from = 0`, `to = −π`, `alpha = 1/2` the
code's normalized difference is −π itself (neither conditional shift fires),
which lies outside the claimed half-open interval (−π, π]; the result is
−π/2, i.e. `from + d·alpha` for `d = −π` only. -/
theorem interpolateAngle_halfopen_counterexample :
    GameSync.normalizedDiff 0 (-piQ) = -piQ ∧
    GameSync.interpolateAngle 0 (-piQ) (1 / 2) = -(piQ / 2) ∧
    ¬ (-piQ < GameSync.normalizedDiff 0 (-piQ)) := by
  have hdiff : GameSync.normalizedDiff 0 (-piQ) = -piQ := by
    have e1 : -piQ - (0 : ℚ) = -piQ := sub_zero _
    simp only [GameSync.normalizedDiff]
    rw [e1, if_neg (show ¬ piQ < -piQ from by linarith [piQ_pos]),
      if_neg (lt_irrefl (-piQ))]
  refine ⟨hdiff, ?_, ?_⟩
  · simp only [GameSync.interpolateAngle]
    rw [hdiff]
    ring
  · rw [hdiff]
    exact lt_irrefl _

/-- C8 (amended): `interpolateAngle` returns `from + d·alpha`, where `d` is
`to − from` shifted by one turn at most once in each direction; whenever
`to − from` lies within one full turn (|to − from| ≤ 2π), `d` lies in the
closed interval [−π, π] and differs from `to − from` by a multiple of 2π —
the shorter arc; in particular interpolating from 3.0 to −3.0 at alpha = 1/2
gives exactly π (magnitude above 3, the path through π, not 0). -/
theorem interpolateAngle_shorter_arc :
    (∀ a b alpha : ℚ,
      GameSync.interpolateAngle a b alpha = a + GameSync.normalizedDiff a b * alpha) ∧
    (∀ a b : ℚ, -(2 * piQ) ≤ b - a → b - a ≤ 2 * piQ →
      -piQ ≤ GameSync.normalizedDiff a b ∧ GameSync.normalizedDiff a b ≤ piQ ∧
      (GameSync.normalizedDiff a b = b - a ∨
       GameSync.normalizedDiff a b = b - a - 2 * piQ ∨
       GameSync.normalizedDiff a b = b - a + 2 * piQ)) ∧
    GameSync.interpolateAngle 3 (-3) (1 / 2) = piQ ∧
    3 < |GameSync.interpolateAngle 3 (-3) (1 / 2)| := by
  have hpi3 := piQ_gt_three
  have hpi4 := piQ_lt_four
  have hconc : GameSync.interpolateAngle 3 (-3) (1 / 2) = piQ := by
    have e1 : (-3 : ℚ) - 3 = -6 := by norm_num
    simp only [GameSync.interpolateAngle, GameSync.normalizedDiff]
    rw [e1, if_neg (show ¬ piQ < (-6 : ℚ) from by linarith),
      if_pos (show (-6 : ℚ) < -piQ from by linarith)]
    ring
  refine ⟨fun a b alpha => rfl, ?_, hconc, ?_⟩
  · intro a b h₁ h₂
    simp only [GameSync.normalizedDiff]
    by_cases hgt : piQ < b - a
    · rw [if_pos hgt,
        if_neg (show ¬ b - a - 2 * piQ < -piQ from by intro hcontr; linarith)]
      exact ⟨by linarith, by linarith, Or.inr (Or.inl rfl)⟩
    · rw [if_neg hgt]
      by_cases hlt : b - a < -piQ
      · rw [if_pos hlt]
        exact ⟨by linarith, by linarith, Or.inr (Or.inr rfl)⟩
      · rw [if_neg hlt]
        exact ⟨by linarith, by linarith, Or.inl rfl⟩
  · rw [hconc, abs_of_pos (by linarith)]
    linarith

/-- Witness for C8 (amended): at `from = 3`, `to = −3` (difference −6,
within one turn) the normalized difference is in [−π, π] and is
`to − from + 2π`; the interpolated value at alpha = 1/2 is π. -/
theorem interpolateAngle_shorter_arc_witness :
    (-piQ ≤ GameSync.normalizedDiff 3 (-3) ∧ GameSync.normalizedDiff 3 (-3) ≤ piQ ∧
      (GameSync.normalizedDiff 3 (-3) = (-3) - 3 ∨
       GameSync.normalizedDiff 3 (-3) = (-3) - 3 - 2 * piQ ∨
       GameSync.normalizedDiff 3 (-3) = (-3) - 3 + 2 * piQ)) ∧
    GameSync.interpolateAngle 3 (-3) (1 / 2) = piQ :=
  ⟨interpolateAngle_shorter_arc.2.1 3 (-3)
      (by linarith [piQ_gt_three]) (by linarith [piQ_gt_three]),
    interpolateAngle_shorter_arc.2.2.1⟩
